import Mathlib

/-
Shallow embedding of the zapp-backend request logic (TMAK1710/zapp-backend).

Sources embedded here:
  - src/index.js            : parseBearer, requireAuth (Firebase first, then JWT),
                              normalizeItems, POST /orders handler, POST /login handler
  - src/unnamed/part_001    : requireAuth (Firebase only, strict Bearer regex)
  - src/unnamed/part_002    : requireAuth (JWT first, then Firebase), requireJwtSecret

JavaScript numbers are modelled as rationals; a value of type Option Rat models
the result of a Number(...) coercion, with none standing for NaN (and, where the
code only asks Number.isFinite or Number.isInteger, for non-finite values in
general).  External verifiers (firebase-admin verifyIdToken, jsonwebtoken
verify, bcrypt compare, jwt sign) are oracles passed in as function parameters;
the cascade and branching logic around them is translated from the source.
-/

deriving instance DecidableEq for Except

namespace Zapp

/-- Whitespace class used by the JS regex escape for whitespace and by
String.prototype.trim (ASCII part plus NBSP and BOM; exotic Unicode spaces
are outside the inputs this model is used on). -/
def jsWhitespace (c : Char) : Bool :=
  c = ' ' || c = '\t' || c = '\n' || c = '\r' ||
  c = Char.ofNat 0x0b || c = Char.ofNat 0x0c ||
  c = Char.ofNat 0xa0 || c = Char.ofNat 0xfeff

/-- JS line terminators: the dot in a JS regex matches any character except
these. -/
def jsLineTerm (c : Char) : Bool :=
  c = '\n' || c = '\r' || c = Char.ofNat 0x2028 || c = Char.ofNat 0x2029

/-- Holds when no character of the list is a JS line terminator, i.e. when the
JS regex fragment of a greedy dot-plus anchored at the end can match the whole
list (provided it is non-empty). -/
def noLineTerm (l : List Char) : Bool :=
  l.all fun c => !(jsLineTerm c)

/-- Strip leading and trailing JS whitespace from a character list
(String.prototype.trim). -/
def trimChars (l : List Char) : List Char :=
  ((l.dropWhile jsWhitespace).reverse.dropWhile jsWhitespace).reverse

/-- String.prototype.trim, as used in normalizeItems (src/index.js line 116). -/
def jsTrim (s : String) : String :=
  ⟨trimChars s.data⟩

/-- JS truthiness of an optional string value: undefined and the empty string
are falsy, every other string is truthy.  Returns the value when truthy. -/
def truthy : Option String → Option String
  | some s => if s = "" then none else some s
  | none => none

/-- The JS expression taking field a, else field b, else the empty string:
first truthy value wins (src/index.js line 116). -/
def jsOrStr (a b : Option String) : String :=
  match truthy a with
  | some s => s
  | none =>
    match truthy b with
    | some t => t
    | none => ""

/-- Continuation of the Bearer regex of src/index.js after at least one
whitespace character has been consumed: matches optional further whitespace
followed by a greedy dot-plus anchored at the end, preferring to extend the
whitespace run first (the backtracking order of the JS engine), and returns
the captured group. -/
def splitTail : List Char → Option (List Char)
  | [] => none
  | c :: cs =>
    if jsWhitespace c then
      match splitTail cs with
      | some tok => some tok
      | none => if noLineTerm (c :: cs) then some (c :: cs) else none
    else if noLineTerm (c :: cs) then some (c :: cs) else none

/-- After the literal Bearer prefix, the regex of src/index.js requires one or
more whitespace characters and then the captured token. -/
def bearerTail : List Char → Option (List Char)
  | [] => none
  | c :: cs => if jsWhitespace c then splitTail cs else none

/-- parseBearer from src/index.js lines 54-58: reads the authorization header
(defaulting to the empty string when absent) and matches it, case
insensitively, against the anchored Bearer-whitespace-capture regex, returning
the captured token. -/
def parseBearer (authHeader : Option String) : Option String :=
  let l := (authHeader.getD "").data
  if (l.take 6).map Char.toLower = "bearer".data then
    (bearerTail (l.drop 6)).map fun tok => ⟨tok⟩
  else none

/-- The stricter Bearer regex of src/unnamed/part_001 line 32 and
src/unnamed/part_002 line 147: case sensitive, exactly one space, greedy
dot-plus capture anchored at the end. -/
def parseBearer1 (authHeader : Option String) : Option String :=
  let l := (authHeader.getD "").data
  if l.take 7 = "Bearer ".data ∧ l.drop 7 ≠ [] ∧ noLineTerm (l.drop 7) then
    some ⟨l.drop 7⟩
  else none

/-- Decoded token payload as used by the middleware: uid plus optional email
and name claims. -/
structure Claims where
  uid : String
  email : Option String
  name : Option String
deriving DecidableEq

/-- What the middleware does with the request: either it sends a response
itself (the downstream handler is never invoked) or it attaches the user to
the request and calls next, with the authType tag the draft assigns (none in
the draft that sets no tag). -/
inductive AuthOutcome where
  | response (status : Nat) (message : String) (errField : Option String)
  | proceed (user : Claims) (authType : Option String)
deriving DecidableEq

/-- Outcome of a requireAuth run together with which verifier oracles were
invoked, so that never-attempted properties can be stated. -/
structure AuthResult where
  outcome : AuthOutcome
  firebaseAttempted : Bool
  jwtAttempted : Bool
deriving DecidableEq

/-- requireAuth from src/index.js lines 63-104: parse the Bearer token, try
the Firebase verifier FIRST (its failure swallowed), then, if a JWT secret is
configured, try the JWT verifier; report 500 when the secret is missing and
401 with the JWT verification error when both schemes fail. -/
def indexRequireAuth (fbVerify : String → Except String Claims)
    (jwtVerify : String → String → Except String Claims)
    (jwtSecret : String) (authHeader : Option String) : AuthResult :=
  match parseBearer authHeader with
  | none => ⟨.response 401 "Missing Bearer token" none, false, false⟩
  | some token =>
    match fbVerify token with
    | .ok d => ⟨.proceed ⟨d.uid, truthy d.email, truthy d.name⟩ (some "firebase"), true, false⟩
    | .error _ =>
      if jwtSecret = "" then
        ⟨.response 500 "JWT_SECRET is missing on server (set it in Cloud Run env vars)" none,
          true, false⟩
      else
        match jwtVerify jwtSecret token with
        | .ok d => ⟨.proceed ⟨d.uid, truthy d.email, truthy d.name⟩ (some "jwt"), true, true⟩
        | .error e => ⟨.response 401 "Invalid or expired token" (some e), true, true⟩

/-- requireAuth from src/unnamed/part_001 lines 29-55: parse the Bearer token
and verify it with Firebase only. -/
def part001RequireAuth (fbVerify : String → Except String Claims)
    (authHeader : Option String) : AuthResult :=
  match parseBearer1 authHeader with
  | none => ⟨.response 401 "Missing Bearer token" none, false, false⟩
  | some token =>
    match fbVerify token with
    | .ok d => ⟨.proceed ⟨d.uid, truthy d.email, truthy d.name⟩ none, true, false⟩
    | .error e => ⟨.response 401 "Invalid or expired token" (some e), true, false⟩

/-- Provider step of requireAuth in src/unnamed/part_002 lines 171-190: verify
with Firebase; on failure the outer catch reports 401 with the Firebase error. -/
def part002Provider (fbVerify : String → Except String Claims)
    (token : String) (jwtAtt : Bool) : AuthResult :=
  match fbVerify token with
  | .ok d => ⟨.proceed ⟨d.uid, truthy d.email, truthy d.name⟩ (some "firebase"), true, jwtAtt⟩
  | .error e => ⟨.response 401 "Invalid or expired token" (some e), true, jwtAtt⟩

/-- requireAuth from src/unnamed/part_002 lines 144-191: parse the Bearer
token, try the JWT verifier FIRST (requireJwtSecret throws inside the inner
try when the secret is unset or shorter than 16 characters, which is swallowed
like any JWT failure), then fall back to the Firebase verifier. -/
def part002RequireAuth (fbVerify : String → Except String Claims)
    (jwtVerify : String → String → Except String Claims)
    (jwtSecret : String) (authHeader : Option String) : AuthResult :=
  match parseBearer1 authHeader with
  | none => ⟨.response 401 "Missing Bearer token" none, false, false⟩
  | some token =>
    if jwtSecret.length < 16 then
      part002Provider fbVerify token false
    else
      match jwtVerify jwtSecret token with
      | .ok d => ⟨.proceed ⟨d.uid, truthy d.email, truthy d.name⟩ (some "jwt"), false, true⟩
      | .error _ => part002Provider fbVerify token true

/-- One raw entry of the items array sent to POST /orders: either not an
object at all, or an object whose relevant fields have already gone through
the JS coercions the code applies (name and itemId as optional strings; qty
and price as the result of a Number coercion, none meaning NaN or, for price,
any non-finite value). -/
structure RawItem where
  name : Option String
  itemId : Option String
  qty : Option ℚ
  price : Option ℚ
deriving DecidableEq

/-- Wrapper distinguishing non-object entries from object entries. -/
inductive RawEntry where
  | notObject
  | obj (it : RawItem)
deriving DecidableEq

/-- A normalized line item as pushed by normalizeItems (src/index.js lines
126-131). -/
structure NItem where
  name : String
  price : ℚ
  qty : ℚ
  lineTotal : ℚ
deriving DecidableEq

/-- Per-item body of the normalizeItems loop (src/index.js lines 113-132):
resolve the display name from name falling back to itemId, trim it, reject an
empty result; reject a qty that is not an integer in one to ninety-nine;
default a non-finite price to zero; emit the normalized item with lineTotal
equal to price times qty. -/
def normalizeItem : RawEntry → Except String NItem
  | .notObject => .error "each item must be an object"
  | .obj it =>
    if jsTrim (jsOrStr it.name it.itemId) = "" then
      .error "item name (or itemId) is required"
    else
      match it.qty with
      | none => .error "qty must be 1..99"
      | some q =>
        if q.den ≠ 1 ∨ q ≤ 0 ∨ 99 < q then .error "qty must be 1..99"
        else
          .ok ⟨jsTrim (jsOrStr it.name it.itemId), it.price.getD 0, q,
               it.price.getD 0 * q⟩

/-- The normalizeItems loop over the list: the first failing item aborts the
whole normalization with its error. -/
def normalizeList : List RawEntry → Except String (List NItem)
  | [] => .ok []
  | e :: rest =>
    match normalizeItem e with
    | .error m => .error m
    | .ok n =>
      match normalizeList rest with
      | .error m => .error m
      | .ok ns => .ok (n :: ns)

/-- normalizeItems from src/index.js lines 106-135 (the not-an-array guard of
line 110 is represented by the caller passing a list; the emptiness guard is
kept). -/
def normalizeItems (items : List RawEntry) : Except String (List NItem) :=
  if items = [] then .error "items must be a non-empty array"
  else normalizeList items

/-- The order document assembled by the POST /orders handler (src/index.js
lines 300-309); createdAt and updatedAt are server-assigned sentinels owned by
the persistence collaborator and are not modelled. -/
structure Order where
  uid : String
  items : List NItem
  subtotal : ℚ
  tax : ℚ
  total : ℚ
  status : String
deriving DecidableEq

/-- HTTP-level result of the POST /orders handler: response status, the
failure message when any, and the list of documents written to the
persistence collaborator during the request. -/
structure HandlerResult where
  status : Nat
  message : Option String
  writes : List Order
deriving DecidableEq

/-- The reduce of src/index.js line 293 summing lineTotal over the normalized
items, starting from zero. -/
def sumLineTotals (ns : List NItem) : ℚ :=
  ns.foldl (fun s n => s + n.lineTotal) 0

/-- POST /orders handler body after authentication (src/index.js lines
282-320): normalize the items, answer 400 with the normalization error and
issue no write on failure, otherwise price the order with the fixed tax rate
six percent and write exactly one order document. -/
def postOrders (uid : String) (items : List RawEntry) (status : Option String) :
    HandlerResult :=
  match normalizeItems items with
  | .error m => ⟨400, some m, []⟩
  | .ok ns =>
    ⟨200, none,
      [⟨uid, ns, sumLineTotals ns, sumLineTotals ns * (6 / 100),
        sumLineTotals ns + sumLineTotals ns * (6 / 100), status.getD "PLACED"⟩]⟩

/-- The JS toLowerCase, on the ASCII range, character by character. -/
def jsToLower (s : String) : String :=
  ⟨s.data.map Char.toLower⟩

/-- cleanEmail from src/index.js lines 41-43: coerce, trim, lowercase. -/
def cleanEmail (email : Option String) : String :=
  jsToLower (jsTrim (email.getD ""))

/-- A users/{uid} document as read by the login handler; the passwordHash
field may be absent (the code defaults it to the empty string). -/
structure UserDoc where
  passwordHash : Option String
deriving DecidableEq

/-- The two Firestore lookups the login handler performs: userEmails/{email}
giving a uid, and users/{uid} giving the user document. -/
structure LoginDb where
  userEmails : String → Option String
  users : String → Option UserDoc

/-- Result of the login handler: an error response or a success payload. -/
inductive LoginResult where
  | fail (status : Nat) (message : String)
  | success (token : String) (uid : String) (email : String)
deriving DecidableEq

/-- POST /login handler from src/index.js lines 222-250: validate presence of
email and password, require the JWT secret, look up the email, then the user
document, compare the password against the stored hash with the bcrypt oracle,
and answer the one identical 401 message on every credential failure path. -/
def login (compare : String → String → Bool) (sign : String → String → String)
    (jwtSecret : String) (db : LoginDb)
    (emailRaw passwordRaw : Option String) : LoginResult :=
  let email := cleanEmail emailRaw
  let password := passwordRaw.getD ""
  if email = "" ∨ password = "" then .fail 400 "email and password are required"
  else if jwtSecret = "" then .fail 500 "Server missing JWT_SECRET"
  else
    match db.userEmails email with
    | none => .fail 401 "Invalid email or password"
    | some uid =>
      match db.users uid with
      | none => .fail 401 "Invalid email or password"
      | some user =>
        if compare password (user.passwordHash.getD "") then
          .success (sign uid email) uid email
        else .fail 401 "Invalid email or password"

/-- Re-inject a normalized item as a raw order entry carrying its name, qty
and price fields, as an already-normalized client would resend it. -/
def reinject (n : NItem) : RawEntry :=
  .obj ⟨some n.name, none, some n.qty, some n.price⟩

/-- A Firebase verifier double that rejects every token. -/
def fbAlwaysFail : String → Except String Claims :=
  fun _ => .error "Firebase: invalid ID token"

/-- A JWT verifier double that accepts every token with a fixed payload. -/
def jwtAlwaysOk : String → String → Except String Claims :=
  fun _ _ => .ok ⟨"u1", some "u1@example.com", none⟩

/-- A JWT verifier double that rejects every token with a distinctive
message. -/
def jwtAlwaysFail : String → String → Except String Claims :=
  fun _ _ => .error "jwt malformed"

/-- A password comparison double that rejects every pair. -/
def cmpAlwaysFalse : String → String → Bool :=
  fun _ _ => false

/-- A token signing double. -/
def signFixed : String → String → String :=
  fun _ _ => "signed-token"

/-- A two-user login database double: one registered email mapping to a user
document with a stored hash. -/
def dbOneUser : LoginDb where
  userEmails := fun e => if e = "b@c.com" then some "u1" else none
  users := fun u => if u = "u1" then some ⟨some "storedhash"⟩ else none

/-- Head of a non-trivial dropWhile result fails the predicate. -/
theorem dropWhile_head_false {α} (p : α → Bool) :
    ∀ (l : List α) (a : α) (t : List α), l.dropWhile p = a :: t → p a = false := by
  intro l
  induction l with
  | nil => intro a t h; simp [List.dropWhile] at h
  | cons b bs ih =>
    intro a t h
    rw [List.dropWhile_cons] at h
    cases hpb : p b with
    | true => rw [hpb] at h; simp at h; exact ih a t h
    | false =>
      rw [hpb] at h; simp at h
      obtain ⟨h1, _⟩ := h
      rw [← h1]; exact hpb

/-- dropWhile is idempotent. -/
theorem dropWhile_idem {α} (p : α → Bool) (l : List α) :
    (l.dropWhile p).dropWhile p = l.dropWhile p := by
  cases h : l.dropWhile p with
  | nil => rfl
  | cons a t =>
    rw [List.dropWhile_cons, dropWhile_head_false p l a t h]
    simp

/-- dropWhile leaves a list whose head fails the predicate untouched. -/
theorem dropWhile_of_head_false {α} (p : α → Bool) (l : List α) (a : α)
    (hh : l.head? = some a) (hp : p a = false) : l.dropWhile p = l := by
  cases l with
  | nil => simp at hh
  | cons b bs =>
    obtain rfl : b = a := by simpa using hh
    rw [List.dropWhile_cons, hp]
    simp

/-- dropWhile removes a prefix: the result is a suffix of the input. -/
theorem dropWhile_suffix_eq {α} (p : α → Bool) (l : List α) :
    ∃ t, l = t ++ l.dropWhile p := by
  induction l with
  | nil => exact ⟨[], rfl⟩
  | cons a l ih =>
    cases hpa : p a with
    | true =>
      obtain ⟨t, ht⟩ := ih
      refine ⟨a :: t, ?_⟩
      rw [List.dropWhile_cons, hpa, if_pos rfl, List.cons_append, ← ht]
    | false =>
      refine ⟨[], ?_⟩
      simp [List.dropWhile_cons, hpa]

/-- A non-empty dropWhile result has the same last element as the input. -/
theorem getLast?_dropWhile {α} (p : α → Bool) (l : List α)
    (h : l.dropWhile p ≠ []) : (l.dropWhile p).getLast? = l.getLast? := by
  obtain ⟨t, ht⟩ := dropWhile_suffix_eq p l
  conv_rhs => rw [ht]
  exact (List.getLast?_append_of_ne_nil t h).symm

/-- Trimming is idempotent on character lists. -/
theorem trimChars_idem (l : List Char) : trimChars (trimChars l) = trimChars l := by
  unfold trimChars
  cases hr : (l.dropWhile jsWhitespace).reverse.dropWhile jsWhitespace with
  | nil => simp
  | cons a t =>
    have hmne : l.dropWhile jsWhitespace ≠ [] := by
      intro h0
      rw [h0] at hr
      simp at hr
    obtain ⟨b, bs, hm⟩ : ∃ b bs, l.dropWhile jsWhitespace = b :: bs := by
      cases hmm : l.dropWhile jsWhitespace with
      | nil => exact absurd hmm hmne
      | cons b bs => exact ⟨b, bs, rfl⟩
    have hpb : jsWhitespace b = false := dropWhile_head_false _ l b bs hm
    have h1 : (l.dropWhile jsWhitespace).reverse.dropWhile jsWhitespace ≠ [] := by
      rw [hr]; simp
    have h2 : ((l.dropWhile jsWhitespace).reverse.dropWhile jsWhitespace).getLast?
        = some b := by
      rw [getLast?_dropWhile _ _ h1, List.getLast?_reverse, hm]
      rfl
    have hTh : (a :: t).reverse.head? = some b := by
      rw [List.head?_reverse, ← hr]
      exact h2
    have hA : (a :: t).reverse.dropWhile jsWhitespace = (a :: t).reverse :=
      dropWhile_of_head_false _ _ b hTh hpb
    have hpa : jsWhitespace a = false :=
      dropWhile_head_false _ (l.dropWhile jsWhitespace).reverse a t hr
    rw [hA, List.reverse_reverse, List.dropWhile_cons, hpa]
    simp

/-- The JS trim is idempotent. -/
theorem jsTrim_idem (s : String) : jsTrim (jsTrim s) = jsTrim s := by
  unfold jsTrim
  exact congrArg String.mk (trimChars_idem s.data)

/-- Inversion of a successful per-item normalization: the accepted quantity is
an integer between one and ninety-nine, the resolved name is non-empty, and
the produced item carries the trimmed resolved name, the defaulted price and
lineTotal equal to price times qty. -/
theorem normalizeItem_ok_obj (it : RawItem) (n : NItem)
    (h : normalizeItem (.obj it) = .ok n) :
    jsTrim (jsOrStr it.name it.itemId) ≠ "" ∧
    it.qty = some n.qty ∧ n.qty.den = 1 ∧ 0 < n.qty ∧ n.qty ≤ 99 ∧
    n = ⟨jsTrim (jsOrStr it.name it.itemId), it.price.getD 0, n.qty,
         it.price.getD 0 * n.qty⟩ := by
  simp only [normalizeItem] at h
  split at h
  · simp at h
  · rename_i hname
    split at h
    · simp at h
    · rename_i q hq
      split at h
      · simp at h
      · rename_i hg
        simp only [Except.ok.injEq] at h
        push_neg at hg
        obtain ⟨hd, hp0, hle⟩ := hg
        subst h
        exact ⟨hname, hq, hd, hp0, hle, rfl⟩

/-- A truthy first field wins the JS or-chain, whatever the second field is. -/
theorem jsOrStr_some_ne (s : String) (b : Option String) (h : s ≠ "") :
    jsOrStr (some s) b = s := by
  simp [jsOrStr, truthy, h]

/-- A falsy first field makes the JS or-chain fall back to the (truthy)
second field. -/
theorem jsOrStr_falsy_some (a : Option String) (t : String)
    (ha : a = none ∨ a = some "") (ht : t ≠ "") : jsOrStr a (some t) = t := by
  rcases ha with rfl | rfl <;> simp [jsOrStr, truthy, ht]

/-- Feeding a successfully normalized item back through the per-item
normalization reproduces it exactly. -/
theorem normalizeItem_reinject (it : RawItem) (n : NItem)
    (h : normalizeItem (.obj it) = .ok n) :
    normalizeItem (reinject n) = .ok n := by
  obtain ⟨hname, hq, hd, hp0, hle, hn⟩ := normalizeItem_ok_obj it n h
  obtain ⟨nm, pr, q, lt⟩ := n
  simp only [NItem.mk.injEq] at hn
  obtain ⟨hnm, hpr, -, hlt⟩ := hn
  subst hnm; subst hpr; subst hlt
  have hguard : ¬(q.den ≠ 1 ∨ q ≤ 0 ∨ 99 < q) := by
    push_neg
    exact ⟨hd, hp0, hle⟩
  have hres : jsOrStr (some (jsTrim (jsOrStr it.name it.itemId))) none
      = jsTrim (jsOrStr it.name it.itemId) :=
    jsOrStr_some_ne _ none hname
  simp only [reinject, normalizeItem, hres, jsTrim_idem]
  rw [if_neg hname, if_neg hguard]
  simp

/-- A successful normalization of a non-empty entry list yields a non-empty
item list. -/
theorem normalizeList_ok_ne_nil (e : RawEntry) (rest : List RawEntry)
    (ns : List NItem) (h : normalizeList (e :: rest) = .ok ns) : ns ≠ [] := by
  simp only [normalizeList] at h
  split at h
  · simp at h
  · split at h
    · simp at h
    · simp only [Except.ok.injEq] at h
      subst h
      simp

/-- Re-normalizing the output of a successful normalization succeeds and
reproduces the list. -/
theorem normalizeList_reinject :
    ∀ (l : List RawEntry) (ns : List NItem), normalizeList l = .ok ns →
      normalizeList (ns.map reinject) = .ok ns := by
  intro l
  induction l with
  | nil =>
    intro ns h
    simp only [normalizeList, Except.ok.injEq] at h
    subst h
    rfl
  | cons e rest ih =>
    intro ns h
    simp only [normalizeList] at h
    split at h
    · simp at h
    · rename_i n he
      split at h
      · simp at h
      · rename_i ns' hr
        simp only [Except.ok.injEq] at h
        subst h
        have hre : normalizeItem (reinject n) = .ok n := by
          cases e with
          | notObject => simp [normalizeItem] at he
          | obj it => exact normalizeItem_reinject it n he
        simp only [List.map_cons, normalizeList, hre, ih ns' hr]

/-- Every item of a successful normalization has lineTotal equal to price
times qty. -/
theorem normalizeList_lineTotal :
    ∀ (l : List RawEntry) (ns : List NItem), normalizeList l = .ok ns →
      ∀ n ∈ ns, n.lineTotal = n.price * n.qty := by
  intro l
  induction l with
  | nil =>
    intro ns h n hn
    simp only [normalizeList, Except.ok.injEq] at h
    subst h
    simp at hn
  | cons e rest ih =>
    intro ns h n hn
    simp only [normalizeList] at h
    split at h
    · simp at h
    · rename_i n0 he
      split at h
      · simp at h
      · rename_i ns' hr
        simp only [Except.ok.injEq] at h
        subst h
        rcases List.mem_cons.mp hn with rfl | hmem
        · cases e with
          | notObject => simp [normalizeItem] at he
          | obj it =>
            obtain ⟨-, -, -, -, -, hn0⟩ := normalizeItem_ok_obj it n he
            rw [hn0]
        · exact ih ns' hr n hmem

/-- A failing member makes the whole list normalization fail (with the error
of the first failing member). -/
theorem normalizeList_error_of_mem :
    ∀ (l : List RawEntry) (e : RawEntry) (m : String), e ∈ l →
      normalizeItem e = .error m → ∃ msg, normalizeList l = .error msg := by
  intro l
  induction l with
  | nil =>
    intro e m he _
    simp at he
  | cons a rest ih =>
    intro e m he hm
    rcases List.mem_cons.mp he with rfl | hmem
    · exact ⟨m, by simp only [normalizeList, hm]⟩
    · cases ha : normalizeItem a with
      | error m' => exact ⟨m', by simp only [normalizeList, ha]⟩
      | ok n =>
        obtain ⟨msg, hmsg⟩ := ih e m hmem hm
        exact ⟨msg, by simp only [normalizeList, ha, hmsg]⟩

/-- C1 counterexample: a token accepted by the JWT verifier, processed by the
requireAuth of src/index.js. Authentication does succeed tagged as the
self-issued scheme, but the Firebase (provider) verification call IS attempted
(firebaseAttempted is true), refuting the claim that the self-issued scheme is
tried first and the provider call is never attempted. -/
theorem c1_counterexample :
    jwtAlwaysOk "s" "tok" = .ok ⟨"u1", some "u1@example.com", none⟩ ∧
    (indexRequireAuth fbAlwaysFail jwtAlwaysOk "s" (some "Bearer tok")).outcome =
      .proceed ⟨"u1", some "u1@example.com", none⟩ (some "jwt") ∧
    (indexRequireAuth fbAlwaysFail jwtAlwaysOk "s" (some "Bearer tok")).firebaseAttempted
      = true := by
  refine ⟨rfl, ?_, ?_⟩ <;> decide

/-- C1 (amended): for a bearer token that verifies under the self-issued (JWT)
scheme and not under the provider scheme, the requireAuth of
src/unnamed/part_002 (with a configured secret of length at least sixteen)
succeeds tagged as the self-issued scheme WITHOUT attempting the provider
call, whereas the requireAuth of src/index.js tries the provider scheme first
— the provider call is attempted and its failure swallowed — and then also
succeeds tagged as the self-issued scheme. -/
theorem c1_self_issued_scheme_per_draft
    (fbVerify : String → Except String Claims)
    (jwtVerify : String → String → Except String Claims)
    (secret : String) (hdr : Option String) (token : String) (c : Claims)
    (e : String)
    (hs16 : 16 ≤ secret.length)
    (hjwt : jwtVerify secret token = .ok c)
    (hfb : fbVerify token = .error e)
    (hp1 : parseBearer1 hdr = some token)
    (hp : parseBearer hdr = some token) :
    part002RequireAuth fbVerify jwtVerify secret hdr =
      ⟨.proceed ⟨c.uid, truthy c.email, truthy c.name⟩ (some "jwt"), false, true⟩ ∧
    indexRequireAuth fbVerify jwtVerify secret hdr =
      ⟨.proceed ⟨c.uid, truthy c.email, truthy c.name⟩ (some "jwt"), true, true⟩ := by
  constructor
  · simp only [part002RequireAuth, hp1]
    rw [if_neg (by omega)]
    simp only [hjwt]
  · have hsne : secret ≠ "" := by
      intro h0
      rw [h0] at hs16
      simp at hs16
    simp only [indexRequireAuth, hp, hfb]
    rw [if_neg hsne]
    simp only [hjwt]

/-- Witness for C1 (amended) at a concrete token, verifier doubles and
sixteen-character secret. -/
theorem c1_witness :
    part002RequireAuth fbAlwaysFail jwtAlwaysOk "0123456789abcdef"
        (some "Bearer tok") =
      ⟨.proceed ⟨"u1", some "u1@example.com", none⟩ (some "jwt"), false, true⟩ ∧
    indexRequireAuth fbAlwaysFail jwtAlwaysOk "0123456789abcdef"
        (some "Bearer tok") =
      ⟨.proceed ⟨"u1", some "u1@example.com", none⟩ (some "jwt"), true, true⟩ :=
  c1_self_issued_scheme_per_draft fbAlwaysFail jwtAlwaysOk "0123456789abcdef"
    (some "Bearer tok") "tok" ⟨"u1", some "u1@example.com", none⟩
    "Firebase: invalid ID token" (by decide) rfl rfl (by decide) (by decide)

/-- C2 counterexample: in the requireAuth of src/index.js, when both schemes
reject the token, the diagnostic error field carries the JWT (self-issued)
verification message, not the Firebase (provider) one, refuting the claim as
stated. -/
theorem c2_counterexample :
    indexRequireAuth fbAlwaysFail jwtAlwaysFail "s" (some "Bearer tok") =
      ⟨.response 401 "Invalid or expired token" (some "jwt malformed"),
        true, true⟩ ∧
    ("jwt malformed" : String) ≠ "Firebase: invalid ID token" := by
  refine ⟨?_, ?_⟩ <;> decide

/-- C2 (amended): for every bearer token failing verification under both
schemes, the requireAuth of src/index.js fails with 401, and the diagnostic
error field carries the self-issued (JWT) scheme error message — the last
scheme attempted — not the provider scheme error message. -/
theorem c2_both_fail_carries_jwt_error
    (fbVerify : String → Except String Claims)
    (jwtVerify : String → String → Except String Claims)
    (secret : String) (hdr : Option String) (token efb ejwt : String)
    (hp : parseBearer hdr = some token) (hs : secret ≠ "")
    (hfb : fbVerify token = .error efb)
    (hjwt : jwtVerify secret token = .error ejwt) :
    indexRequireAuth fbVerify jwtVerify secret hdr =
      ⟨.response 401 "Invalid or expired token" (some ejwt), true, true⟩ := by
  simp only [indexRequireAuth, hp, hfb]
  rw [if_neg hs]
  simp only [hjwt]

/-- Witness for C2 (amended) at a concrete token and failing verifier
doubles. -/
theorem c2_witness :
    indexRequireAuth fbAlwaysFail jwtAlwaysFail "s" (some "Bearer t") =
      ⟨.response 401 "Invalid or expired token" (some "jwt malformed"),
        true, true⟩ :=
  c2_both_fail_carries_jwt_error fbAlwaysFail jwtAlwaysFail "s"
    (some "Bearer t") "t" "Firebase: invalid ID token" "jwt malformed"
    (by decide) (by decide) rfl rfl

/-- C3: for every item list that normalizes successfully, the created order
has subtotal equal to the sum of the lineTotals, lineTotal equal to price
times qty for every item, tax equal to subtotal times six percent, total
equal to subtotal plus tax, and hence total equal to subtotal times one point
zero six (exactly, in the rational model). -/
theorem c3_order_pricing (uid : String) (st : Option String)
    (items : List RawEntry) (ns : List NItem)
    (h : normalizeItems items = .ok ns) :
    ∃ o : Order, postOrders uid items st = ⟨200, none, [o]⟩ ∧
      o.items = ns ∧
      o.subtotal = sumLineTotals ns ∧
      (∀ n ∈ ns, n.lineTotal = n.price * n.qty) ∧
      o.tax = o.subtotal * (6 / 100) ∧
      o.total = o.subtotal + o.tax ∧
      o.total = o.subtotal * (106 / 100) := by
  have hne : items ≠ [] := by
    rintro rfl
    simp [normalizeItems] at h
  have hlist : normalizeList items = .ok ns := by
    simp only [normalizeItems, if_neg hne] at h
    exact h
  refine ⟨⟨uid, ns, sumLineTotals ns, sumLineTotals ns * (6 / 100),
    sumLineTotals ns + sumLineTotals ns * (6 / 100), st.getD "PLACED"⟩,
    ?_, rfl, rfl, ?_, rfl, rfl, ?_⟩
  · simp only [postOrders, h]
  · exact normalizeList_lineTotal items ns hlist
  · show sumLineTotals ns + sumLineTotals ns * (6 / 100)
      = sumLineTotals ns * (106 / 100)
    ring

/-- Witness for C3 at the Latte example of the spec: one item at price nine
halves, qty two. -/
theorem c3_witness :
    ∃ o : Order,
      postOrders "u1" [RawEntry.obj ⟨some "Latte", none, some 2, some (9 / 2)⟩]
          none = ⟨200, none, [o]⟩ ∧
      o.items = [⟨"Latte", 9 / 2, 2, 9⟩] ∧
      o.subtotal = sumLineTotals [⟨"Latte", 9 / 2, 2, 9⟩] ∧
      (∀ n ∈ ([⟨"Latte", 9 / 2, 2, 9⟩] : List NItem),
        n.lineTotal = n.price * n.qty) ∧
      o.tax = o.subtotal * (6 / 100) ∧
      o.total = o.subtotal + o.tax ∧
      o.total = o.subtotal * (106 / 100) :=
  c3_order_pricing "u1" none _ [⟨"Latte", 9 / 2, 2, 9⟩]
    (by with_unfolding_all decide)

/-- C4: with a valid resolved name, the per-item normalization rejects with
exactly the qty rule message precisely when the coerced qty is not an integer
between one and ninety-nine; qty zero, one hundred and minus one are
instances of the rejection, qty one and ninety-nine of the acceptance. -/
theorem c4_qty_gate (it : RawItem)
    (hname : jsTrim (jsOrStr it.name it.itemId) ≠ "") :
    normalizeItem (.obj it) = .error "qty must be 1..99" ↔
      ¬ ∃ q : ℚ, it.qty = some q ∧ q.den = 1 ∧ 0 < q ∧ q ≤ 99 := by
  constructor
  · intro h hex
    obtain ⟨q, hq, hd, hp0, hle⟩ := hex
    simp only [normalizeItem] at h
    rw [if_neg hname] at h
    split at h
    · rename_i hnone
      rw [hq] at hnone
      simp at hnone
    · rename_i q' hq'
      rw [hq] at hq'
      injection hq' with hqq
      subst hqq
      rw [if_neg (by push_neg; exact ⟨hd, hp0, hle⟩)] at h
      simp at h
  · intro hnex
    simp only [normalizeItem]
    rw [if_neg hname]
    split
    · rfl
    · rename_i q hq
      have hg : q.den ≠ 1 ∨ q ≤ 0 ∨ 99 < q := by
        by_contra hc
        push_neg at hc
        exact hnex ⟨q, hq, hc.1, hc.2.1, hc.2.2⟩
      rw [if_pos hg]

/-- Witness for C4: qty zero is rejected with the qty rule message for an
otherwise valid item. -/
theorem c4_witness :
    normalizeItem (.obj ⟨some "x", none, some 0, none⟩) =
      .error "qty must be 1..99" := by
  refine (c4_qty_gate ⟨some "x", none, some 0, none⟩ (by decide)).mpr ?_
  rintro ⟨q, hq, -, hp0, -⟩
  injection hq with hqq
  rw [← hqq] at hp0
  exact absurd hp0 (by norm_num)

/-- C5: order normalization is all-or-nothing: when any member of the item
list fails per-item validation, normalizeItems returns an error, the handler
answers 400 with that error, and the writes list is empty — no partial order
is ever persisted. -/
theorem c5_all_or_nothing (uid : String) (st : Option String)
    (items : List RawEntry) (e : RawEntry) (m : String)
    (he : e ∈ items) (hm : normalizeItem e = .error m) :
    ∃ msg, normalizeItems items = .error msg ∧
      postOrders uid items st = ⟨400, some msg, []⟩ := by
  obtain ⟨msg, hmsg⟩ := normalizeList_error_of_mem items e m he hm
  have hne : items ≠ [] := by
    rintro rfl
    simp at he
  have h1 : normalizeItems items = .error msg := by
    simp only [normalizeItems, if_neg hne]
    exact hmsg
  exact ⟨msg, h1, by simp only [postOrders, h1]⟩

/-- Witness for C5 at a list containing one non-object entry. -/
theorem c5_witness :
    ∃ msg, normalizeItems [RawEntry.notObject] = .error msg ∧
      postOrders "u" [RawEntry.notObject] none = ⟨400, some msg, []⟩ :=
  c5_all_or_nothing "u" none [RawEntry.notObject] RawEntry.notObject
    "each item must be an object" (by decide) rfl

/-- C6: when the Authorization header is absent or does not match the Bearer
shape, both the requireAuth of src/index.js and the requireAuth of
src/unnamed/part_001 answer 401 with the Missing Bearer token message, no
verifier is invoked and the downstream handler is never reached (the outcome
is a response, not a proceed). -/
theorem c6_missing_bearer
    (fbVerify : String → Except String Claims)
    (jwtVerify : String → String → Except String Claims)
    (secret : String) (fb1 : String → Except String Claims)
    (hdr : Option String)
    (hp : parseBearer hdr = none) (hq1 : parseBearer1 hdr = none) :
    indexRequireAuth fbVerify jwtVerify secret hdr =
      ⟨.response 401 "Missing Bearer token" none, false, false⟩ ∧
    part001RequireAuth fb1 hdr =
      ⟨.response 401 "Missing Bearer token" none, false, false⟩ := by
  constructor
  · simp only [indexRequireAuth, hp]
  · simp only [part001RequireAuth, hq1]

/-- Witness for C6 at an absent Authorization header. -/
theorem c6_witness :
    indexRequireAuth fbAlwaysFail jwtAlwaysOk "s" none =
      ⟨.response 401 "Missing Bearer token" none, false, false⟩ ∧
    part001RequireAuth fbAlwaysFail none =
      ⟨.response 401 "Missing Bearer token" none, false, false⟩ :=
  c6_missing_bearer fbAlwaysFail jwtAlwaysOk "s" fbAlwaysFail none rfl rfl

/-- C7: the login handler of src/index.js answers the identical failure (401,
Invalid email or password) both for an unregistered email and for a
registered email whose stored hash does not match the supplied password, so
the two cases are indistinguishable to the caller. -/
theorem c7_no_user_enumeration
    (compare : String → String → Bool) (sign : String → String → String)
    (secret : String) (db : LoginDb)
    (e1 p1 e2 p2 : Option String) (uid : String) (user : UserDoc)
    (hs : secret ≠ "")
    (he1 : cleanEmail e1 ≠ "") (hp1 : p1.getD "" ≠ "")
    (hu1 : db.userEmails (cleanEmail e1) = none)
    (he2 : cleanEmail e2 ≠ "") (hp2 : p2.getD "" ≠ "")
    (hu2 : db.userEmails (cleanEmail e2) = some uid)
    (hud : db.users uid = some user)
    (hcmp : compare (p2.getD "") (user.passwordHash.getD "") = false) :
    login compare sign secret db e1 p1 = .fail 401 "Invalid email or password" ∧
    login compare sign secret db e2 p2 = .fail 401 "Invalid email or password" := by
  constructor
  · simp only [login]
    rw [if_neg (by push_neg; exact ⟨he1, hp1⟩), if_neg hs]
    simp only [hu1]
  · simp only [login]
    rw [if_neg (by push_neg; exact ⟨he2, hp2⟩), if_neg hs]
    simp only [hu2, hud, hcmp]
    simp

/-- Witness for C7: an unregistered email and a registered email with an
always-rejecting comparison double produce the same response. -/
theorem c7_witness :
    login cmpAlwaysFalse signFixed "s" dbOneUser (some "a@b.com") (some "pw1") =
      .fail 401 "Invalid email or password" ∧
    login cmpAlwaysFalse signFixed "s" dbOneUser (some "b@c.com") (some "pw2") =
      .fail 401 "Invalid email or password" :=
  c7_no_user_enumeration cmpAlwaysFalse signFixed "s" dbOneUser
    (some "a@b.com") (some "pw1") (some "b@c.com") (some "pw2")
    "u1" ⟨some "storedhash"⟩ (by decide) (by decide) (by decide) (by decide)
    (by decide) (by decide) (by decide) (by decide) rfl

/-- C8: normalization is idempotent: re-normalizing the item list produced by
a successful normalization (each item resent with its name, qty and price
fields) succeeds and reproduces the same items, hence in particular the same
lineTotal values. -/
theorem c8_idempotent (items : List RawEntry) (ns : List NItem)
    (h : normalizeItems items = .ok ns) :
    normalizeItems (ns.map reinject) = .ok ns := by
  have hne : items ≠ [] := by
    rintro rfl
    simp [normalizeItems] at h
  have hlist : normalizeList items = .ok ns := by
    simp only [normalizeItems, if_neg hne] at h
    exact h
  have hnsne : ns ≠ [] := by
    obtain ⟨e, rest, rfl⟩ : ∃ e rest, items = e :: rest := by
      cases items with
      | nil => exact absurd rfl hne
      | cons e rest => exact ⟨e, rest, rfl⟩
    exact normalizeList_ok_ne_nil e rest ns hlist
  have hmapne : ns.map reinject ≠ [] := by
    simpa using hnsne
  simp only [normalizeItems, if_neg hmapne]
  exact normalizeList_reinject items ns hlist

/-- Witness for C8 at the one-item Latte list. -/
theorem c8_witness :
    normalizeItems
        (([⟨"Latte", 9 / 2, 2, 9⟩] : List NItem).map reinject) =
      .ok [⟨"Latte", 9 / 2, 2, 9⟩] :=
  c8_idempotent [RawEntry.obj ⟨some "Latte", none, some 2, some (9 / 2)⟩]
    [⟨"Latte", 9 / 2, 2, 9⟩] (by with_unfolding_all decide)

/-- C9: with a valid qty, the per-item normalization resolves the display
name from the name field whenever that is a truthy (non-empty) string —
whatever the itemId field holds — and falls back to the itemId field exactly
when the name field is absent or empty; the resolved name is then trimmed. -/
theorem c9_name_resolution (it : RawItem) (q : ℚ)
    (hq : it.qty = some q) (hd : q.den = 1) (hp0 : 0 < q) (hle : q ≤ 99) :
    (∀ s, it.name = some s → s ≠ "" → jsTrim s ≠ "" →
      normalizeItem (.obj it) =
        .ok ⟨jsTrim s, it.price.getD 0, q, it.price.getD 0 * q⟩) ∧
    ((it.name = none ∨ it.name = some "") →
      ∀ t, it.itemId = some t → jsTrim t ≠ "" →
        normalizeItem (.obj it) =
          .ok ⟨jsTrim t, it.price.getD 0, q, it.price.getD 0 * q⟩) := by
  have hguard : ¬(q.den ≠ 1 ∨ q ≤ 0 ∨ 99 < q) := by
    push_neg
    exact ⟨hd, hp0, hle⟩
  constructor
  · intro s hs hsne htne
    have hres : jsOrStr it.name it.itemId = s := by
      rw [hs]
      exact jsOrStr_some_ne s it.itemId hsne
    simp only [normalizeItem, hres]
    rw [if_neg htne]
    simp only [hq]
    rw [if_neg hguard]
  · intro hnone t ht htne
    have htne' : t ≠ "" := by
      rintro rfl
      exact htne rfl
    have hres : jsOrStr it.name it.itemId = t := by
      rw [ht]
      exact jsOrStr_falsy_some it.name t hnone htne'
    simp only [normalizeItem, hres]
    rw [if_neg htne]
    simp only [hq]
    rw [if_neg hguard]

/-- Witness for C9: an item carrying both a padded name and an itemId
resolves to the trimmed name, ignoring the itemId. -/
theorem c9_witness :
    normalizeItem (.obj ⟨some "  A  ", some "B", some 1, none⟩) =
      .ok ⟨"A", 0, 1, 0⟩ := by
  have h := (c9_name_resolution ⟨some "  A  ", some "B", some 1, none⟩ 1 rfl
    (by with_unfolding_all decide) (by with_unfolding_all decide)
    (by with_unfolding_all decide)).1 "  A  " rfl (by decide) (by decide)
  rw [h]
  with_unfolding_all decide

/-- C10: in the requireAuth of src/index.js, when the JWT secret is not
configured and the Firebase verification of the parsed token fails, the
middleware answers 500 with the configuration-error message — not a 401 —
and the JWT verifier is never invoked. -/
theorem c10_missing_secret_500
    (fbVerify : String → Except String Claims)
    (jwtVerify : String → String → Except String Claims)
    (hdr : Option String) (token e : String)
    (hp : parseBearer hdr = some token) (hfb : fbVerify token = .error e) :
    indexRequireAuth fbVerify jwtVerify "" hdr =
      ⟨.response 500
        "JWT_SECRET is missing on server (set it in Cloud Run env vars)" none,
        true, false⟩ := by
  simp only [indexRequireAuth, hp, hfb]
  simp

/-- Witness for C10 at a concrete token with the always-failing Firebase
double. -/
theorem c10_witness :
    indexRequireAuth fbAlwaysFail jwtAlwaysOk "" (some "Bearer tok") =
      ⟨.response 500
        "JWT_SECRET is missing on server (set it in Cloud Run env vars)" none,
        true, false⟩ :=
  c10_missing_secret_500 fbAlwaysFail jwtAlwaysOk (some "Bearer tok") "tok"
    "Firebase: invalid ID token" (by decide) rfl

end Zapp
